import Mathlib

/-!
The bidirectional stream coordinator of telnet-cli (`main.go`).

A shallow embedding of `main.go`.  The program's effects on its collaborators
(the cancellable context, the connection, the buffered writer, the standard
streams) are made explicit: every call the code makes on one of them is
appended to an event log carried in the session state, next to the flags the
call changes.  What the environment answers (the bytes and error of a read,
the error of a write or flush, the error `io.CopyBuffer` returns) is an input
of the embedded function.
-/

namespace TelnetCli

/-! ## Data model -/

/-- A byte of a stream.  Bytes are only compared with the delimiter, never
computed with. -/
abbrev Byte := Nat

/-- The delimiter the outbound goroutine passes to `reader.ReadBytes`. -/
def newline : Byte := 10

/-- What the code observes of a Go `error` value: its `Error()` text and the
two `errors.Is` tests `main.go` applies to it. -/
structure GoError where
  /-- Text of `err.Error()`. -/
  msg : String
  /-- Value of `errors.Is(err, net.ErrClosed)`. -/
  isNetErrClosed : Bool
  /-- Value of `errors.Is(err, io.EOF)`. -/
  isEOF : Bool
  deriving DecidableEq, Repr

/-- The three places of `main.go` that call `conn.Close()`. -/
inductive CloseSite where
  /-- Line 83, inside `closeAll`. -/
  | closeAll
  /-- Line 121, the fallback of the outbound goroutine. -/
  | fallback
  /-- Line 72, the deferred call of `main`. -/
  | deferred
  deriving DecidableEq, Repr

/-- A call made by the program on one of its collaborators. -/
inductive Event where
  /-- The call `cancel()`. -/
  | cancel
  /-- The call `conn.Close()`, with the place that makes it. -/
  | connClose (site : CloseSite)
  /-- The call `tcp.CloseWrite()`. -/
  | closeWrite
  /-- The call `reader.ReadBytes(10)` with the chunk and error it returned. -/
  | stdinRead (b : List Byte) (err : Option GoError)
  /-- The call `writer.Write(b)` with the error it returned. -/
  | write (b : List Byte) (err : Option GoError)
  /-- The call `writer.Flush()` with the error it returned. -/
  | flush (err : Option GoError)
  /-- The call `io.CopyBuffer(os.Stdout, conn, buf)` with the bytes it copied
  and the error it returned. -/
  | copy (data : List Byte) (err : Option GoError)
  /-- A text printed on `os.Stderr`. -/
  | stderr (text : String)
  deriving DecidableEq, Repr

/-- State of a session, from the point where `main` has dialled and declared
`wg`, `once` and `closeAll` (line 84). -/
structure Session where
  /-- Whether `tcp != nil`, the result of `conn.(*net.TCPConn)`. -/
  tcp : Bool
  /-- Whether `ctx` has been cancelled. -/
  ctxDone : Bool
  /-- Whether `conn.Close()` has been called. -/
  connClosed : Bool
  /-- Whether `tcp.CloseWrite()` has been called. -/
  writeClosed : Bool
  /-- State of `once`: whether `once.Do` has run its function. -/
  onceDone : Bool
  /-- Bytes held by the outbound goroutine's `bufio.Writer`. -/
  buffered : List Byte
  /-- Chunks handed to the connection, one per completed `Flush`. -/
  sent : List (List Byte)
  /-- Bytes copied to `os.Stdout`. -/
  stdout : List Byte
  /-- Every call made so far, oldest first. -/
  log : List Event
  deriving DecidableEq, Repr

/-- The session right after a successful connect: nothing cancelled, nothing
closed, `once` unused. -/
def newSession (tcp : Bool) : Session :=
  { tcp := tcp, ctxDone := false, connClosed := false, writeClosed := false,
    onceDone := false, buffered := [], sent := [], stdout := [], log := [] }

/-! ## Primitive calls -/

/-- The call `cancel()`: the context is done afterwards. -/
def cancel (s : Session) : Session :=
  { s with ctxDone := true, log := s.log ++ [Event.cancel] }

/-- The call `_ = conn.Close()`: the handle is closed afterwards; the error a
repeated close returns is discarded by the code. -/
def connClose (s : Session) (site : CloseSite) : Session :=
  { s with connClosed := true, log := s.log ++ [Event.connClose site] }

/-- The call `_ = tcp.CloseWrite()`: the write side is shut down. -/
def closeWrite (s : Session) : Session :=
  { s with writeClosed := true, log := s.log ++ [Event.closeWrite] }

/-- A print on `os.Stderr`. -/
def eprint (s : Session) (text : String) : Session :=
  { s with log := s.log ++ [Event.stderr text] }

/-- Line 83: `closeAll = func() { once.Do(func() { cancel(); _ = conn.Close() }) }`. -/
def closeAll (s : Session) : Session :=
  if s.onceDone then s
  else
    let s1 := cancel s
    let s2 := connClose s1 CloseSite.closeAll
    { s2 with onceDone := true }

/-- Number of `conn.Close()` calls made so far from one place. -/
def closeCallsAt (s : Session) (site : CloseSite) : Nat :=
  s.log.count (Event.connClose site)

/-- Number of `conn.Close()` calls made so far, every place counted. -/
def closeCalls (s : Session) : Nat :=
  closeCallsAt s CloseSite.closeAll + closeCallsAt s CloseSite.fallback +
    closeCallsAt s CloseSite.deferred

/-- Number of `cancel()` calls made so far. -/
def cancelCalls (s : Session) : Nat := s.log.count Event.cancel

/-- Number of `tcp.CloseWrite()` calls made so far. -/
def closeWriteCalls (s : Session) : Nat := s.log.count Event.closeWrite

/-- Texts printed on `os.Stderr` so far, oldest first. -/
def stderrOf : List Event → List String
  | [] => []
  | Event.stderr t :: es => t :: stderrOf es
  | _ :: es => stderrOf es

/-- The diagnostic stream of a session. -/
def diag (s : Session) : List String := stderrOf s.log

/-! ## Strings -/

/-- Whether the second list starts the first. -/
def startsWith : List Char → List Char → Bool
  | _, [] => true
  | [], _ :: _ => false
  | c :: cs, p :: ps => c == p && startsWith cs ps

/-- Whether the second list occurs in the first as a contiguous block. -/
def containsChars : List Char → List Char → Bool
  | [], sub => startsWith [] sub
  | c :: cs, sub => startsWith (c :: cs) sub || containsChars cs sub

/-- Go's `strings.Contains(s, substr)`. -/
def stringsContains (s substr : String) : Bool :=
  containsChars s.toList substr.toList

/-- Lines 158-160: `isUseOfClosed`. -/
def isUseOfClosed (err : Option GoError) : Bool :=
  match err with
  | none => false
  | some e => stringsContains e.msg "use of closed network connection"

/-! ## Signal listener (lines 53-64) -/

/-- The `sigCh` case of the listener's `select`: the notice is printed and
`cancel()` is called.  The argument is the printed name of the signal. -/
def handleSignal (s : Session) (sig : String) : Session :=
  let s1 := eprint s ("\n[" ++ sig ++ "] signal received, closing...\n")
  cancel s1

/-! ## Inbound goroutine (lines 88-97) -/

/-- The guard of line 92: the error is non-nil, is not `net.ErrClosed`, is
not a use-of-closed error and is not `io.EOF`. -/
def reportsReadError (err : Option GoError) : Bool :=
  match err with
  | none => false
  | some e => !e.isNetErrClosed && !isUseOfClosed (some e) && !e.isEOF

/-- The text of `err` under the `%v` verb. -/
def errText (err : Option GoError) : String :=
  match err with
  | none => "<nil>"
  | some e => e.msg

/-- The inbound goroutine, given what `io.CopyBuffer` copied and returned. -/
def inboundPump (s : Session) (data : List Byte) (err : Option GoError) : Session :=
  let s1 := { s with stdout := s.stdout ++ data, log := s.log ++ [Event.copy data err] }
  let s2 := if reportsReadError err then eprint s1 ("read error: " ++ errText err ++ "\n") else s1
  let s3 := eprint s2 "\n[connection closed by remote]\n"
  closeAll s3

/-! ## Outbound goroutine (lines 101-130) -/

/-- Local input: the bytes still to come and the error the source yields once
they are exhausted (`io.EOF` at end-of-input). -/
structure Stdin where
  /-- Bytes not yet read. -/
  data : List Byte
  /-- Error returned when no byte is left. -/
  err : GoError
  deriving DecidableEq, Repr

/-- The error `io.EOF`. -/
def eof : GoError := { msg := "EOF", isNetErrClosed := false, isEOF := true }

/-- Splits a byte list after the first delimiter, if there is one. -/
def splitDelim (delim : Byte) : List Byte → Option (List Byte × List Byte)
  | [] => none
  | c :: cs =>
    if c = delim then some ([c], cs)
    else
      match splitDelim delim cs with
      | none => none
      | some (line, rest) => some (c :: line, rest)

/-- The call `reader.ReadBytes(delim)` of `bufio.Reader`: the bytes up to and
including the first delimiter; when the source fails before a delimiter is
found, the bytes read before the failure together with the error. -/
def readBytes (inp : Stdin) (delim : Byte) : List Byte × Option GoError × Stdin :=
  match splitDelim delim inp.data with
  | some (line, rest) => (line, none, { inp with data := rest })
  | none => (inp.data, some inp.err, { inp with data := [] })

/-- What the connection answers to one iteration's `writer.Write(b)` and
`writer.Flush()`. -/
structure WriteResult where
  /-- Error of `writer.Write(b)`. -/
  writeErr : Option GoError
  /-- Error of `writer.Flush()`. -/
  flushErr : Option GoError
  deriving DecidableEq, Repr

/-- Both calls succeed. -/
def WriteResult.ok : WriteResult := { writeErr := none, flushErr := none }

/-- How an iteration of the outbound loop ends. -/
inductive LoopExit where
  /-- The loop goes on to the next `ReadBytes`. -/
  | next
  /-- A `break`: the write or the flush failed. -/
  | writeFailed
  /-- The `return` of line 127: the read returned an error. -/
  | readEnded
  deriving DecidableEq, Repr

/-- Lines 107-114: the chunk is written and flushed when it is not empty.
A successful `Write` leaves the chunk in the writer, a successful `Flush`
hands what the writer holds to the connection.  The boolean is false when
the code breaks out of the loop. -/
def writeChunk (s : Session) (b : List Byte) (r : WriteResult) : Session × Bool :=
  if b.length > 0 then
    match r.writeErr with
    | some e => ({ s with log := s.log ++ [Event.write b (some e)] }, false)
    | none =>
      let s1 := { s with buffered := s.buffered ++ b, log := s.log ++ [Event.write b none] }
      match r.flushErr with
      | some e => ({ s1 with log := s1.log ++ [Event.flush (some e)] }, false)
      | none =>
        ({ s1 with sent := s1.sent ++ [s1.buffered], buffered := [],
                   log := s1.log ++ [Event.flush none] }, true)
  else (s, true)

/-- Lines 116-126: the branch taken when `ReadBytes` returned the error `e`. -/
def onReadError (s : Session) (e : GoError) : Session :=
  if e.isEOF then
    let s1 := if s.tcp then closeWrite s else connClose s CloseSite.fallback
    eprint s1 "[stdin closed] sending FIN; waiting for remote...\n"
  else if !e.isNetErrClosed then
    eprint s ("stdin read error: " ++ e.msg ++ "\n")
  else s

/-- One iteration of the loop of lines 105-129, given what `ReadBytes`
returned and what the connection answers. -/
def outboundIter (s : Session) (b : List Byte) (err : Option GoError) (r : WriteResult) :
    Session × LoopExit :=
  let s1 := { s with log := s.log ++ [Event.stdinRead b err] }
  match writeChunk s1 b r with
  | (s2, false) => (s2, LoopExit.writeFailed)
  | (s2, true) =>
    match err with
    | none => (s2, LoopExit.next)
    | some e => (onReadError s2 e, LoopExit.readEnded)

/-- The loop of lines 105-129 on a given local input; `wr i` is the answer of
the connection in iteration `i`.  The result is `none` when the fuel runs out
before the goroutine returns. -/
def outboundLoop : Nat → Session → Stdin → (Nat → WriteResult) → Nat → Option (Session × LoopExit)
  | 0, _, _, _, _ => none
  | fuel + 1, s, inp, wr, i =>
    match readBytes inp newline with
    | (b, err, inp1) =>
      match outboundIter s b err (wr i) with
      | (s1, LoopExit.next) => outboundLoop fuel s1 inp1 wr (i + 1)
      | (s1, exit) => some (s1, exit)

/-- The outbound goroutine: a fresh `bufio.Writer`, then the loop.  Every
iteration but the last consumes at least one byte, so the length of the input
plus one is enough fuel. -/
def outboundPump (s : Session) (inp : Stdin) (wr : Nat → WriteResult) : Option (Session × LoopExit) :=
  outboundLoop (inp.data.length + 1) { s with buffered := [] } inp wr 0

/-! ## A session from connect to exit -/

/-- State of the three goroutines started by `main` together with the
session they share. -/
structure Run where
  /-- The shared session. -/
  s : Session
  /-- Whether the signal listener has returned. -/
  sigDone : Bool
  /-- Whether the inbound goroutine has returned. -/
  inDone : Bool
  /-- Whether the outbound goroutine has returned. -/
  outDone : Bool
  deriving DecidableEq, Repr

/-- A scheduling step of a session. -/
inductive Action where
  /-- A signal arrives and the listener takes the `sigCh` case. -/
  | signal (sig : String)
  /-- The listener takes the `ctx.Done()` case. -/
  | ctxDoneSeen
  /-- The copy of the inbound goroutine returns and the goroutine runs to
  its end. -/
  | inbound (data : List Byte) (err : Option GoError)
  /-- The outbound goroutine runs one iteration of its loop. -/
  | outbound (b : List Byte) (err : Option GoError) (r : WriteResult)
  deriving DecidableEq, Repr

/-- The goroutines right after they are started. -/
def Run.start (tcp : Bool) : Run :=
  { s := newSession tcp, sigDone := false, inDone := false, outDone := false }

/-- Effect of one scheduling step; a step of a goroutine that has returned,
or a `ctx.Done()` case that is not ready, changes nothing. -/
def Run.step (r : Run) : Action → Run
  | Action.signal sig =>
    if r.sigDone then r else { r with s := handleSignal r.s sig, sigDone := true }
  | Action.ctxDoneSeen =>
    if r.s.ctxDone then { r with sigDone := true } else r
  | Action.inbound data err =>
    if r.inDone then r else { r with s := inboundPump r.s data err, inDone := true }
  | Action.outbound b err w =>
    if r.outDone then r
    else
      match outboundIter r.s b err w with
      | (s1, LoopExit.next) => { r with s := s1 }
      | (s1, _) => { r with s := s1, outDone := true }

/-- The goroutines after a sequence of scheduling steps. -/
def Run.exec (tcp : Bool) (acts : List Action) : Run :=
  acts.foldl Run.step (Run.start tcp)

/-- The end of `main`: once `wg.Wait()` returns, the deferred calls run, last
deferred first: `conn.Close()` (line 72), then `cancel()` (line 51).  The
result is `none` while a pump is still running. -/
def mainReturn (r : Run) : Option Session :=
  if r.inDone && r.outDone then some (cancel (connClose r.s CloseSite.deferred)) else none

/-! ## Address parsing (lines 137-149) -/

deriving instance DecidableEq for Except

/-- The function `net.JoinHostPort` of the Go standard library
(`net/ipsock.go`), as it reads in the releases that provide `net.ErrClosed`,
which `main.go` uses: the host is bracketed when it contains a colon. -/
def joinHostPort (host port : String) : String :=
  if stringsContains host ":" then "[" ++ host ++ "]:" ++ port
  else host ++ ":" ++ port

/-- Lines 137-149: `parseAddr`. -/
def parseAddr (args : List String) : Except String String :=
  match args with
  | [a] =>
    if !stringsContains a ":" then
      Except.error "single argument must be in host:port form"
    else Except.ok a
  | [h, p] => Except.ok (joinHostPort h p)
  | _ => Except.error "invalid arguments"

/-! ## Shared lemmas -/

theorem stderrOf_append (l1 l2 : List Event) :
    stderrOf (l1 ++ l2) = stderrOf l1 ++ stderrOf l2 := by
  induction l1 with
  | nil => rfl
  | cons e es ih => cases e <;> simp [stderrOf, ih]

theorem closeAll_of_done (s : Session) (h : s.onceDone = true) : closeAll s = s := by
  simp [closeAll, h]

theorem closeAll_of_fresh (s : Session) (h : s.onceDone = false) :
    closeAll s = { s with ctxDone := true, connClosed := true, onceDone := true,
                          log := s.log ++ [Event.cancel, Event.connClose CloseSite.closeAll] } := by
  simp [closeAll, h, cancel, connClose]

theorem closeAll_onceDone (s : Session) : (closeAll s).onceDone = true := by
  cases h : s.onceDone
  · rw [closeAll_of_fresh s h]
  · rw [closeAll_of_done s h]; exact h

theorem closeAll_closeAll (s : Session) : closeAll (closeAll s) = closeAll s :=
  closeAll_of_done _ (closeAll_onceDone s)

theorem closeAll_iterate (s : Session) (n : Nat) :
    closeAll^[n + 1] s = closeAll s := by
  induction n with
  | zero => rfl
  | succ k ih => rw [Function.iterate_succ_apply', ih, closeAll_closeAll]

theorem diag_closeAll (s : Session) : diag (closeAll s) = diag s := by
  cases h : s.onceDone
  · rw [closeAll_of_fresh s h]; simp [diag, stderrOf_append, stderrOf]
  · rw [closeAll_of_done s h]

/-- The latch invariant: once `once` has run, the context is cancelled and
the connection is closed. -/
def LatchInv (s : Session) : Prop :=
  s.onceDone = true → s.ctxDone = true ∧ s.connClosed = true

theorem latchInv_closeAll (s : Session) (h : LatchInv s) :
    (closeAll s).ctxDone = true ∧ (closeAll s).connClosed = true := by
  cases hd : s.onceDone
  · rw [closeAll_of_fresh s hd]; exact ⟨rfl, rfl⟩
  · rw [closeAll_of_done s hd]; exact h hd

theorem latchInv_handleSignal (s : Session) (sig : String) (h : LatchInv s) :
    LatchInv (handleSignal s sig) := by
  intro hd
  have := h hd
  exact ⟨rfl, this.2⟩

theorem latchInv_inboundPump (s : Session) (data : List Byte) (err : Option GoError)
    (h : LatchInv s) : LatchInv (inboundPump s data err) := by
  intro _
  unfold inboundPump
  apply latchInv_closeAll
  intro hd
  have := h (by split at hd <;> exact hd)
  split <;> exact this

/-- The second session has the shutdown latch, the context, the connection
and the diagnostic stream of the first: same flags, same numbers of
`cancel`, `Close` (place by place) and `CloseWrite` calls, same texts on
`os.Stderr`. -/
def SameConn (s t : Session) : Prop :=
  t.tcp = s.tcp ∧ t.ctxDone = s.ctxDone ∧ t.connClosed = s.connClosed ∧
  t.writeClosed = s.writeClosed ∧ t.onceDone = s.onceDone ∧
  (∀ site, closeCallsAt t site = closeCallsAt s site) ∧
  closeWriteCalls t = closeWriteCalls s ∧
  cancelCalls t = cancelCalls s ∧ diag t = diag s

theorem SameConn.refl (s : Session) : SameConn s s :=
  ⟨rfl, rfl, rfl, rfl, rfl, fun _ => rfl, rfl, rfl, rfl⟩

theorem SameConn.closeCalls_eq {s t : Session} (h : SameConn s t) :
    closeCalls t = closeCalls s := by
  obtain ⟨_, _, _, _, _, h6, _⟩ := h
  simp [closeCalls, h6]

theorem SameConn.trans {s t u : Session} (h1 : SameConn s t) (h2 : SameConn t u) :
    SameConn s u := by
  obtain ⟨a1, a2, a3, a4, a5, a6, a7, a8, a9⟩ := h1
  obtain ⟨b1, b2, b3, b4, b5, b6, b7, b8, b9⟩ := h2
  exact ⟨b1.trans a1, b2.trans a2, b3.trans a3, b4.trans a4, b5.trans a5,
    fun site => (b6 site).trans (a6 site), b7.trans a7, b8.trans a8, b9.trans a9⟩

/-- Whether the last call of a log is a `Write` or a `Flush` that returned
an error. -/
def endsInFailedWrite (log : List Event) : Bool :=
  match log.getLast? with
  | some (Event.write _ (some _)) => true
  | some (Event.flush (some _)) => true
  | _ => false

theorem writeChunk_sameConn (s : Session) (b : List Byte) (r : WriteResult) :
    SameConn s (writeChunk s b r).1 := by
  unfold writeChunk
  split
  · cases r.writeErr <;> cases r.flushErr <;>
      simp [SameConn, closeCallsAt, closeWriteCalls, cancelCalls, diag, stderrOf_append, stderrOf]
  · exact SameConn.refl s

theorem writeChunk_failed (s : Session) (b : List Byte) (r : WriteResult)
    (h : (writeChunk s b r).2 = false) :
    endsInFailedWrite (writeChunk s b r).1.log = true := by
  unfold writeChunk at h ⊢
  split at h
  · rw [if_pos (by assumption)]
    cases hw : r.writeErr <;> cases hf : r.flushErr <;>
      simp [hw, hf, endsInFailedWrite] at h ⊢
  · simp at h

theorem outboundIter_sameConn (s : Session) (b : List Byte) (err : Option GoError)
    (r : WriteResult) (h : (outboundIter s b err r).2 ≠ LoopExit.readEnded) :
    SameConn s (outboundIter s b err r).1 := by
  have h0 : SameConn s { s with log := s.log ++ [Event.stdinRead b err] } := by
    simp [SameConn, closeCallsAt, closeWriteCalls, cancelCalls, diag, stderrOf_append, stderrOf]
  have h1 := writeChunk_sameConn { s with log := s.log ++ [Event.stdinRead b err] } b r
  rcases hw : writeChunk { s with log := s.log ++ [Event.stdinRead b err] } b r with ⟨s2, ok⟩
  rw [hw] at h1
  cases ok
  · simp only [outboundIter, hw]
    exact h0.trans h1
  · cases err with
    | none =>
      simp only [outboundIter, hw]
      exact h0.trans h1
    | some e => simp [outboundIter, hw] at h

theorem outboundIter_failed (s : Session) (b : List Byte) (err : Option GoError)
    (r : WriteResult) (h : (outboundIter s b err r).2 = LoopExit.writeFailed) :
    endsInFailedWrite (outboundIter s b err r).1.log = true := by
  have h1 := writeChunk_failed { s with log := s.log ++ [Event.stdinRead b err] } b r
  rcases hw : writeChunk { s with log := s.log ++ [Event.stdinRead b err] } b r with ⟨s2, ok⟩
  rw [hw] at h1
  cases ok
  · simp only [outboundIter, hw]
    exact h1 rfl
  · cases err <;> simp [outboundIter, hw] at h

theorem splitDelim_some (d : Byte) :
    ∀ (xs line rest : List Byte), splitDelim d xs = some (line, rest) →
      xs = line ++ rest ∧ line ≠ [] := by
  intro xs
  induction xs with
  | nil => intro line rest h; simp [splitDelim] at h
  | cons c cs ih =>
    intro line rest h
    unfold splitDelim at h
    split at h
    · simp at h; obtain ⟨rfl, rfl⟩ := h; simp
    · cases hs : splitDelim d cs with
      | none => simp [hs] at h
      | some p =>
        obtain ⟨l, r⟩ := p
        simp [hs] at h
        obtain ⟨rfl, rfl⟩ := h
        have := ih l r hs
        simp [this.1]

theorem outboundIter_next_err (s : Session) (b : List Byte) (err : Option GoError)
    (r : WriteResult) (h : (outboundIter s b err r).2 = LoopExit.next) : err = none := by
  rcases hw : writeChunk { s with log := s.log ++ [Event.stdinRead b err] } b r with ⟨s2, ok⟩
  cases ok <;> cases err <;> simp [outboundIter, hw] at h ⊢

theorem readBytes_none_length (inp : Stdin) (d : Byte) (b : List Byte) (inp1 : Stdin)
    (h : readBytes inp d = (b, none, inp1)) : inp1.data.length < inp.data.length := by
  unfold readBytes at h
  cases hs : splitDelim d inp.data with
  | none => simp [hs] at h
  | some p =>
    obtain ⟨l, r⟩ := p
    simp [hs] at h
    obtain ⟨rfl, rfl⟩ := h
    obtain ⟨h1, h2⟩ := splitDelim_some d _ _ _ hs
    have : 0 < l.length := List.length_pos.mpr h2
    simp only [h1, List.length_append]
    omega

/-- The outbound loop returns whenever the fuel exceeds the length of the
input. -/
theorem outboundLoop_total :
    ∀ (fuel : Nat) (s : Session) (inp : Stdin) (wr : Nat → WriteResult) (i : Nat),
      inp.data.length < fuel → ∃ res, outboundLoop fuel s inp wr i = some res := by
  intro fuel
  induction fuel with
  | zero => intro s inp wr i h; omega
  | succ n ih =>
    intro s inp wr i h
    rcases hr : readBytes inp newline with ⟨b, err, inp1⟩
    rcases hi : outboundIter s b err (wr i) with ⟨s1, exit⟩
    cases exit with
    | next =>
      have he : err = none := outboundIter_next_err s b err (wr i) (by rw [hi])
      subst he
      have := readBytes_none_length inp newline b inp1 hr
      simp only [outboundLoop, hr, hi]
      exact ih s1 inp1 wr (i + 1) (by omega)
    | writeFailed => exact ⟨(s1, LoopExit.writeFailed), by simp only [outboundLoop, hr, hi]⟩
    | readEnded => exact ⟨(s1, LoopExit.readEnded), by simp only [outboundLoop, hr, hi]⟩

/-- A run of the outbound loop that ends on a failed write leaves latch,
context, connection and diagnostic stream as they were, and makes no call
after the failed one. -/
theorem outboundLoop_writeFailed :
    ∀ (fuel : Nat) (s : Session) (inp : Stdin) (wr : Nat → WriteResult) (i : Nat) (t : Session),
      outboundLoop fuel s inp wr i = some (t, LoopExit.writeFailed) →
      SameConn s t ∧ endsInFailedWrite t.log = true := by
  intro fuel
  induction fuel with
  | zero => intro s inp wr i t h; simp [outboundLoop] at h
  | succ n ih =>
    intro s inp wr i t h
    rcases hr : readBytes inp newline with ⟨b, err, inp1⟩
    rcases hi : outboundIter s b err (wr i) with ⟨s1, exit⟩
    have hs := outboundIter_sameConn s b err (wr i)
    have hf := outboundIter_failed s b err (wr i)
    rw [hi] at hs hf
    cases exit with
    | next =>
      simp only [outboundLoop, hr, hi] at h
      have := ih s1 inp1 wr (i + 1) t h
      exact ⟨(hs (by simp)).trans this.1, this.2⟩
    | writeFailed =>
      simp [outboundLoop, hr, hi] at h
      subst h
      exact ⟨hs (by simp), hf rfl⟩
    | readEnded => simp [outboundLoop, hr, hi] at h

theorem writeChunk_ok (s : Session) (b : List Byte) (hb : s.buffered = []) :
    (writeChunk s b WriteResult.ok).2 = true ∧
    (writeChunk s b WriteResult.ok).1.buffered = [] ∧
    ∃ chunks, (writeChunk s b WriteResult.ok).1.sent = s.sent ++ chunks ∧ chunks.flatten = b := by
  unfold writeChunk
  split
  · exact ⟨by simp [WriteResult.ok], by simp [WriteResult.ok], [b], by simp [WriteResult.ok, hb], by simp⟩
  · have : b = [] := by
      cases b with
      | nil => rfl
      | cons c cs => simp at *
    exact ⟨rfl, hb, [], by simp, by simp [this]⟩

theorem readBytes_none (inp : Stdin) (d : Byte) (b : List Byte) (inp1 : Stdin)
    (h : readBytes inp d = (b, none, inp1)) :
    inp.data = b ++ inp1.data ∧ inp1.err = inp.err := by
  unfold readBytes at h
  cases hs : splitDelim d inp.data with
  | none => simp [hs] at h
  | some p =>
    obtain ⟨l, r⟩ := p
    simp [hs] at h
    obtain ⟨rfl, rfl⟩ := h
    exact ⟨(splitDelim_some d _ _ _ hs).1, rfl⟩

theorem readBytes_some (inp : Stdin) (d : Byte) (b : List Byte) (e : GoError) (inp1 : Stdin)
    (h : readBytes inp d = (b, some e, inp1)) : b = inp.data ∧ e = inp.err := by
  unfold readBytes at h
  cases hs : splitDelim d inp.data with
  | none =>
    simp [hs] at h
    exact ⟨h.1.symm, h.2.1.symm⟩
  | some p =>
    obtain ⟨l, r⟩ := p
    simp [hs] at h

/-- When no write and no flush fails, the outbound loop hands the whole input
to the connection, calling neither `Close` nor `CloseWrite` nor `cancel` on
the way, and ends in the branch of the read error. -/
theorem outboundLoop_ok :
    ∀ (fuel : Nat) (s : Session) (inp : Stdin) (wr : Nat → WriteResult) (i : Nat),
      (∀ j, wr j = WriteResult.ok) → s.buffered = [] → inp.data.length < fuel →
      ∃ t chunks, SameConn s t ∧ t.sent = s.sent ++ chunks ∧ chunks.flatten = inp.data ∧
        outboundLoop fuel s inp wr i = some (onReadError t inp.err, LoopExit.readEnded) := by
  intro fuel
  induction fuel with
  | zero => intro s inp wr i _ _ h; omega
  | succ n ih =>
    intro s inp wr i hwr hb h
    rcases hr : readBytes inp newline with ⟨b, err, inp1⟩
    have h0 : SameConn s { s with log := s.log ++ [Event.stdinRead b err] } := by
      simp [SameConn, closeCallsAt, closeWriteCalls, cancelCalls, diag, stderrOf_append, stderrOf]
    have h1 := writeChunk_sameConn { s with log := s.log ++ [Event.stdinRead b err] } b WriteResult.ok
    obtain ⟨k1, k2, cs, k3, k4⟩ :=
      writeChunk_ok { s with log := s.log ++ [Event.stdinRead b err] } b hb
    rcases hw : writeChunk { s with log := s.log ++ [Event.stdinRead b err] } b WriteResult.ok
      with ⟨s2, ok⟩
    rw [hw] at h1 k1 k2 k3
    simp only at h1 k1 k2 k3
    subst k1
    cases err with
    | none =>
      obtain ⟨e1, e2⟩ := readBytes_none inp newline b inp1 hr
      have hl := readBytes_none_length inp newline b inp1 hr
      obtain ⟨t, ds, t1, t2, t3, t4⟩ := ih s2 inp1 wr (i + 1) hwr k2 (by omega)
      refine ⟨t, cs ++ ds, (h0.trans h1).trans t1, ?_, ?_, ?_⟩
      · rw [t2, k3, List.append_assoc]
      · rw [List.flatten_append, k4, t3, e1]
      · simp only [outboundLoop, hr, hwr i, outboundIter, hw]
        rw [t4, e2]
    | some e =>
      obtain ⟨e1, e2⟩ := readBytes_some inp newline b e inp1 hr
      refine ⟨s2, cs, h0.trans h1, k3, ?_, ?_⟩
      · rw [k4, e1]
      · simp only [outboundLoop, hr, hwr i, outboundIter, hw]
        rw [e2]

theorem onReadError_flags (s : Session) (e : GoError) :
    (onReadError s e).tcp = s.tcp ∧ (onReadError s e).onceDone = s.onceDone ∧
    (onReadError s e).ctxDone = s.ctxDone ∧
    (s.connClosed = true → (onReadError s e).connClosed = true) := by
  unfold onReadError
  cases e.isEOF <;> cases e.isNetErrClosed <;> cases ht : s.tcp <;>
    simp [eprint, closeWrite, connClose, ht]

theorem outboundIter_flags (s : Session) (b : List Byte) (err : Option GoError)
    (r : WriteResult) :
    (outboundIter s b err r).1.tcp = s.tcp ∧
    (outboundIter s b err r).1.onceDone = s.onceDone ∧
    (outboundIter s b err r).1.ctxDone = s.ctxDone ∧
    (s.connClosed = true → (outboundIter s b err r).1.connClosed = true) := by
  have h1 := writeChunk_sameConn { s with log := s.log ++ [Event.stdinRead b err] } b r
  rcases hw : writeChunk { s with log := s.log ++ [Event.stdinRead b err] } b r with ⟨s2, ok⟩
  rw [hw] at h1
  obtain ⟨a1, a2, a3, _, a5, _⟩ := h1
  simp only at a1 a2 a3 a5
  cases ok
  · simp only [outboundIter, hw]
    exact ⟨a1, a5, a2, fun h => a3.trans h⟩
  · cases err with
    | none =>
      simp only [outboundIter, hw]
      exact ⟨a1, a5, a2, fun h => a3.trans h⟩
    | some e =>
      simp only [outboundIter, hw]
      obtain ⟨f1, f2, f3, f4⟩ := onReadError_flags s2 e
      exact ⟨f1.trans a1, f2.trans a5, f3.trans a2, fun h => f4 (a3.trans h)⟩

theorem latchInv_step (r : Run) (a : Action) (h : LatchInv r.s) : LatchInv (r.step a).s := by
  cases a with
  | signal sig =>
    simp only [Run.step]
    split
    · exact h
    · exact latchInv_handleSignal r.s sig h
  | ctxDoneSeen =>
    simp only [Run.step]
    split <;> exact h
  | inbound data err =>
    simp only [Run.step]
    split
    · exact h
    · exact latchInv_inboundPump r.s data err h
  | outbound b err w =>
    obtain ⟨_, f2, f3, f4⟩ := outboundIter_flags r.s b err w
    have key : LatchInv (outboundIter r.s b err w).1 := by
      intro hd
      rw [f2] at hd
      have := h hd
      exact ⟨f3.trans this.1, f4 this.2⟩
    simp only [Run.step]
    split
    · exact h
    · rcases hi : outboundIter r.s b err w with ⟨s1, exit⟩
      rw [hi] at key
      cases exit <;> exact key

theorem latchInv_foldl (acts : List Action) :
    ∀ r : Run, LatchInv r.s → LatchInv (acts.foldl Run.step r).s := by
  induction acts with
  | nil => intro r h; exact h
  | cons a as ih => intro r h; exact ih (r.step a) (latchInv_step r a h)

/-- Every state a session reaches satisfies the latch invariant. -/
theorem latchInv_exec (tcp : Bool) (acts : List Action) : LatchInv (Run.exec tcp acts).s :=
  latchInv_foldl acts (Run.start tcp) (by intro h; simp [Run.start, newSession] at h)

theorem sameConn_resetBuffer (s : Session) : SameConn s { s with buffered := [] } :=
  ⟨rfl, rfl, rfl, rfl, rfl, fun _ => rfl, rfl, rfl, rfl⟩

/-- An iteration whose chunk is not empty and whose write or flush fails ends
in the `break`. -/
theorem outboundIter_fail (s : Session) (b : List Byte) (err : Option GoError)
    (r : WriteResult) (hb : b ≠ []) (hf : r.writeErr ≠ none ∨ r.flushErr ≠ none) :
    (outboundIter s b err r).2 = LoopExit.writeFailed := by
  have hl : b.length > 0 := List.length_pos.mpr hb
  cases hw : r.writeErr with
  | some e => simp [outboundIter, writeChunk, hl, hw]
  | none =>
    cases hfl : r.flushErr with
    | some e => simp [outboundIter, writeChunk, hl, hw, hfl]
    | none => simp [hw, hfl] at hf

/-- The outbound goroutine returns on every input, and when it returns on a
failed write, latch, context, connection and diagnostic stream are as they
were at its start and the failed call is its last. -/
theorem outboundPump_writeFailed (s : Session) (inp : Stdin) (wr : Nat → WriteResult) :
    ∃ res, outboundPump s inp wr = some res ∧
      (res.2 = LoopExit.writeFailed →
        SameConn s res.1 ∧ endsInFailedWrite res.1.log = true) := by
  obtain ⟨res, hres⟩ :=
    outboundLoop_total (inp.data.length + 1) { s with buffered := [] } inp wr 0 (by omega)
  refine ⟨res, hres, fun hx => ?_⟩
  obtain ⟨t, exit⟩ := res
  simp only at hx
  subst hx
  obtain ⟨h1, h2⟩ := outboundLoop_writeFailed _ _ inp wr 0 t hres
  exact ⟨(sameConn_resetBuffer s).trans h1, h2⟩

theorem onReadError_closeCalls (s : Session) (e : GoError) :
    closeCallsAt (onReadError s e) CloseSite.closeAll = closeCallsAt s CloseSite.closeAll ∧
    closeCallsAt (onReadError s e) CloseSite.deferred = closeCallsAt s CloseSite.deferred ∧
    closeCallsAt (onReadError s e) CloseSite.fallback ≤
      closeCallsAt s CloseSite.fallback + (if s.tcp then 0 else 1) := by
  unfold onReadError
  cases e.isEOF <;> cases e.isNetErrClosed <;> cases ht : s.tcp <;>
    simp [eprint, closeWrite, connClose, ht, closeCallsAt, List.count_append]

theorem outboundIter_closeCalls (s : Session) (b : List Byte) (err : Option GoError)
    (r : WriteResult) :
    closeCallsAt (outboundIter s b err r).1 CloseSite.closeAll =
      closeCallsAt s CloseSite.closeAll ∧
    closeCallsAt (outboundIter s b err r).1 CloseSite.deferred =
      closeCallsAt s CloseSite.deferred ∧
    closeCallsAt (outboundIter s b err r).1 CloseSite.fallback ≤
      closeCallsAt s CloseSite.fallback + (if s.tcp then 0 else 1) ∧
    ((outboundIter s b err r).2 = LoopExit.next →
      closeCallsAt (outboundIter s b err r).1 CloseSite.fallback =
        closeCallsAt s CloseSite.fallback) := by
  by_cases hx : (outboundIter s b err r).2 = LoopExit.readEnded
  · have h0 : SameConn s { s with log := s.log ++ [Event.stdinRead b err] } := by
      simp [SameConn, closeCallsAt, closeWriteCalls, cancelCalls, diag, stderrOf_append,
        stderrOf]
    have h1 := writeChunk_sameConn { s with log := s.log ++ [Event.stdinRead b err] } b r
    rcases hw : writeChunk { s with log := s.log ++ [Event.stdinRead b err] } b r with ⟨s2, ok⟩
    rw [hw] at h1
    have h2 := h0.trans h1
    obtain ⟨a1, _, _, _, _, a6, _⟩ := h2
    simp only at a1 a6
    cases ok
    · simp [outboundIter, hw] at hx
    · cases err with
      | none => simp [outboundIter, hw] at hx
      | some e =>
        simp only [outboundIter, hw]
        obtain ⟨c1, c2, c3⟩ := onReadError_closeCalls s2 e
        rw [a1] at c3
        refine ⟨c1.trans (a6 _), c2.trans (a6 _), ?_, fun h => by simp at h⟩
        rw [← a6 CloseSite.fallback]
        exact c3
  · obtain ⟨_, _, _, _, _, a6, _⟩ := outboundIter_sameConn s b err r hx
    refine ⟨a6 _, a6 _, ?_, fun _ => a6 _⟩
    rw [a6]
    exact Nat.le_add_right _ _

theorem inboundPump_closeCalls (s : Session) (data : List Byte) (err : Option GoError) :
    closeCallsAt (inboundPump s data err) CloseSite.closeAll =
      closeCallsAt s CloseSite.closeAll + (if s.onceDone then 0 else 1) ∧
    closeCallsAt (inboundPump s data err) CloseSite.deferred =
      closeCallsAt s CloseSite.deferred ∧
    closeCallsAt (inboundPump s data err) CloseSite.fallback =
      closeCallsAt s CloseSite.fallback ∧
    (inboundPump s data err).tcp = s.tcp ∧
    (inboundPump s data err).onceDone = true := by
  unfold inboundPump
  cases hd : s.onceDone <;> cases reportsReadError err <;>
    simp [closeAll, eprint, cancel, connClose, hd, closeCallsAt, List.count_append]

/-- What the log of a running session holds of `conn.Close()` calls: one from
`closeAll` exactly when `once` has run, at most one from the fallback, and
only when the outbound goroutine has returned on a connection without
half-close, none from the deferred call; the inbound goroutine has not
returned before `once` has run. -/
def CloseInv (tcp : Bool) (r : Run) : Prop :=
  r.s.tcp = tcp ∧
  closeCallsAt r.s CloseSite.closeAll = (if r.s.onceDone then 1 else 0) ∧
  closeCallsAt r.s CloseSite.fallback ≤ (if r.outDone && !tcp then 1 else 0) ∧
  closeCallsAt r.s CloseSite.deferred = 0 ∧
  (r.inDone = true → r.s.onceDone = true)

theorem closeInv_step (tcp : Bool) (r : Run) (a : Action) (h : CloseInv tcp r) :
    CloseInv tcp (r.step a) := by
  obtain ⟨h1, h2, h3, h4, h5⟩ := h
  cases a with
  | signal sig =>
    simp only [Run.step]
    split
    · exact ⟨h1, h2, h3, h4, h5⟩
    · refine ⟨h1, ?_, ?_, ?_, h5⟩
      · simpa [handleSignal, eprint, cancel, closeCallsAt, List.count_append] using h2
      · simpa [handleSignal, eprint, cancel, closeCallsAt, List.count_append] using h3
      · simpa [handleSignal, eprint, cancel, closeCallsAt, List.count_append] using h4
  | ctxDoneSeen =>
    simp only [Run.step]
    split
    · exact ⟨h1, h2, h3, h4, h5⟩
    · exact ⟨h1, h2, h3, h4, h5⟩
  | inbound data err =>
    simp only [Run.step]
    split
    · exact ⟨h1, h2, h3, h4, h5⟩
    · obtain ⟨c1, c2, c3, c4, c5⟩ := inboundPump_closeCalls r.s data err
      refine ⟨c4.trans h1, ?_, ?_, c2.trans h4, fun _ => c5⟩
      · simp only
        rw [c1, c5, h2]
        cases r.s.onceDone <;> simp
      · simp only
        rw [c3]
        exact h3
  | outbound b err w =>
    simp only [Run.step]
    split
    · exact ⟨h1, h2, h3, h4, h5⟩
    · rename_i hout
      simp only [Bool.not_eq_true] at hout
      obtain ⟨f1, f2, _, _⟩ := outboundIter_flags r.s b err w
      obtain ⟨c1, c2, c3, c4⟩ := outboundIter_closeCalls r.s b err w
      simp only [hout, Bool.false_and, Bool.false_eq_true, if_false, Nat.le_zero] at h3
      rcases hi : outboundIter r.s b err w with ⟨s1, exit⟩
      rw [hi] at f1 f2 c1 c2 c3 c4
      simp only at f1 f2 c1 c2 c3 c4
      have hfb : closeCallsAt s1 CloseSite.fallback ≤ (if (true && !tcp) then 1 else 0) := by
        rw [h3, h1] at c3
        cases tcp <;> simpa using c3
      cases exit with
      | next =>
        refine ⟨f1.trans h1, ?_, ?_, c2.trans h4, fun hin => f2.trans (h5 hin)⟩
        · simp only
          rw [c1, f2]
          exact h2
        · simp only
          rw [c4 rfl, h3]
          exact Nat.zero_le _
      | writeFailed =>
        refine ⟨f1.trans h1, ?_, hfb, c2.trans h4, fun hin => f2.trans (h5 hin)⟩
        simp only
        rw [c1, f2]
        exact h2
      | readEnded =>
        refine ⟨f1.trans h1, ?_, hfb, c2.trans h4, fun hin => f2.trans (h5 hin)⟩
        simp only
        rw [c1, f2]
        exact h2

theorem closeInv_foldl (tcp : Bool) (acts : List Action) :
    ∀ r : Run, CloseInv tcp r → CloseInv tcp (acts.foldl Run.step r) := by
  induction acts with
  | nil => intro r h; exact h
  | cons a as ih => intro r h; exact ih (r.step a) (closeInv_step tcp r a h)

theorem closeInv_exec (tcp : Bool) (acts : List Action) : CloseInv tcp (Run.exec tcp acts) :=
  closeInv_foldl tcp acts (Run.start tcp)
    (by simp [CloseInv, Run.start, newSession, closeCallsAt])

theorem containsChars_single (c : Char) (s : List Char) :
    containsChars s [c] = true ↔ c ∈ s := by
  induction s with
  | nil => simp [containsChars, startsWith]
  | cons x xs ih =>
    have : startsWith xs [] = true := by cases xs <;> rfl
    simp only [containsChars, startsWith, this, Bool.and_true, Bool.or_eq_true, beq_iff_eq, ih,
      List.mem_cons]
    constructor
    · rintro (h | h)
      · exact Or.inl h.symm
      · exact Or.inr h
    · rintro (h | h)
      · exact Or.inl h.symm
      · exact Or.inr h

/-- Go's `strings.Contains(s, ":")` holds exactly when a colon is among the
characters of `s`. -/
theorem stringsContains_colon (s : String) :
    stringsContains s ":" = true ↔ ':' ∈ s.toList := by
  unfold stringsContains
  exact containsChars_single ':' s.toList

/-! ## The claims -/

/-- C1 (idempotent shutdown).  On a session whose `once` is unused, `n ≥ 1`
calls of `closeAll` leave the state that one call leaves; the body ran once:
the log has gained one `cancel()` and one `conn.Close()`, in this order, and
nothing else; a further call changes nothing.  The function is total, so no
call raises an error. -/
theorem closeAll_idempotent (s : Session) (n : Nat) (hfresh : s.onceDone = false)
    (hn : 1 ≤ n) :
    closeAll^[n] s = closeAll s ∧
    (closeAll^[n] s).log = s.log ++ [Event.cancel, Event.connClose CloseSite.closeAll] ∧
    closeCalls (closeAll^[n] s) = closeCalls s + 1 ∧
    cancelCalls (closeAll^[n] s) = cancelCalls s + 1 ∧
    (closeAll^[n] s).ctxDone = true ∧ (closeAll^[n] s).connClosed = true ∧
    (closeAll^[n] s).onceDone = true ∧
    closeAll (closeAll^[n] s) = closeAll^[n] s := by
  obtain ⟨k, rfl⟩ : ∃ k, n = k + 1 := ⟨n - 1, by omega⟩
  rw [closeAll_iterate]
  refine ⟨rfl, ?_, ?_, ?_, ?_, ?_, ?_, closeAll_closeAll s⟩
  · rw [closeAll_of_fresh s hfresh]
  · rw [closeAll_of_fresh s hfresh]
    simp [closeCalls, closeCallsAt, List.count_append]
    omega
  · rw [closeAll_of_fresh s hfresh]
    simp [cancelCalls, List.count_append]
  · rw [closeAll_of_fresh s hfresh]
  · rw [closeAll_of_fresh s hfresh]
  · rw [closeAll_of_fresh s hfresh]

/-- Witness of C1: three calls on the session right after connect. -/
theorem closeAll_idempotent_witness :
    (newSession true).onceDone = false ∧ 1 ≤ 3 ∧
    closeAll^[3] (newSession true) = closeAll (newSession true) ∧
    closeCalls (closeAll^[3] (newSession true)) = closeCalls (newSession true) + 1 :=
  have h := closeAll_idempotent (newSession true) 3 rfl (by decide)
  ⟨rfl, by decide, h.1, h.2.2.1⟩

/-- C2 (signal forwarding), evaluated at the failing input: on the session
right after connect, the listener handling an interrupt prints its notice
and calls `cancel()` only.  The context is cancelled, but `conn.Close()` is
not called, the connection stays open and `once` stays unused, whereas one
`closeAll` call closes the connection. -/
theorem signal_cancels_without_closing :
    (Run.step (Run.start true) (Action.signal "interrupt")).s.log =
      [Event.stderr "\n[interrupt] signal received, closing...\n", Event.cancel] ∧
    (Run.step (Run.start true) (Action.signal "interrupt")).s.ctxDone = true ∧
    (Run.step (Run.start true) (Action.signal "interrupt")).s.connClosed = false ∧
    (Run.step (Run.start true) (Action.signal "interrupt")).s.onceDone = false ∧
    closeCalls (Run.step (Run.start true) (Action.signal "interrupt")).s = 0 ∧
    (closeAll (Run.start true).s).connClosed = true := by
  decide

/-- C4 (the inbound pump always ends the session).  In every state a session
reaches, under every schedule, and for every outcome of the copy (no error
or any error), the inbound goroutine returns with the shutdown latch set,
the context cancelled and the connection closed, the close of `closeAll`
having been made exactly once by then. -/
theorem inbound_always_shuts_down (tcp : Bool) (acts : List Action) (data : List Byte)
    (err : Option GoError) :
    (inboundPump (Run.exec tcp acts).s data err).onceDone = true ∧
    (inboundPump (Run.exec tcp acts).s data err).connClosed = true ∧
    (inboundPump (Run.exec tcp acts).s data err).ctxDone = true ∧
    closeCallsAt (inboundPump (Run.exec tcp acts).s data err) CloseSite.closeAll = 1 := by
  have hinv := latchInv_inboundPump _ data err (latchInv_exec tcp acts)
  obtain ⟨c1, _, _, _, hd⟩ := inboundPump_closeCalls (Run.exec tcp acts).s data err
  obtain ⟨_, h2, _⟩ := closeInv_exec tcp acts
  refine ⟨hd, (hinv hd).2, (hinv hd).1, ?_⟩
  rw [c1, h2]
  cases (Run.exec tcp acts).s.onceDone <;> simp

/-- C7 (inbound error classification).  With no error, or with an error that
is `net.ErrClosed`, or whose text contains "use of closed network
connection", or that is `io.EOF`, the inbound goroutine prints the
closed-by-remote notice only; with any other error it prints a "read error"
line carrying the error text first.  In particular the read error of a
locally closed handle, which wraps `net.ErrClosed`, is not reported. -/
theorem inbound_error_classification (s : Session) (data : List Byte) :
    diag (inboundPump s data none) = diag s ++ ["\n[connection closed by remote]\n"] ∧
    ∀ e : GoError,
      ((e.isNetErrClosed = true ∨
          stringsContains e.msg "use of closed network connection" = true ∨
          e.isEOF = true) →
        diag (inboundPump s data (some e)) = diag s ++ ["\n[connection closed by remote]\n"]) ∧
      (¬ (e.isNetErrClosed = true ∨
          stringsContains e.msg "use of closed network connection" = true ∨
          e.isEOF = true) →
        diag (inboundPump s data (some e)) =
          diag s ++ ["read error: " ++ e.msg ++ "\n", "\n[connection closed by remote]\n"]) := by
  refine ⟨?_, fun e => ⟨?_, ?_⟩⟩
  · unfold inboundPump
    rw [diag_closeAll]
    simp [reportsReadError, eprint, diag, stderrOf_append, stderrOf]
  · intro h
    have hr : reportsReadError (some e) = false := by
      simp only [reportsReadError, isUseOfClosed]
      rcases h with h | h | h <;> simp [h]
    unfold inboundPump
    rw [diag_closeAll]
    simp [hr, eprint, diag, stderrOf_append, stderrOf]
  · intro h
    have hr : reportsReadError (some e) = true := by
      simp only [reportsReadError, isUseOfClosed]
      simp only [not_or, Bool.not_eq_true] at h
      simp [h.1, h.2.1, h.2.2]
    unfold inboundPump
    rw [diag_closeAll]
    simp [hr, eprint, diag, stderrOf_append, stderrOf, errText]

/-- Witness of C7: a read on a handle closed locally, and a reset by the
peer. -/
theorem inbound_error_classification_witness :
    diag (inboundPump (newSession true) []
        (some ⟨"read tcp 10.0.0.1:50000->10.0.0.2:23: use of closed network connection",
          true, false⟩)) =
      ["\n[connection closed by remote]\n"] ∧
    diag (inboundPump (newSession true) []
        (some ⟨"read tcp 10.0.0.1:50000->10.0.0.2:23: connection reset by peer",
          false, false⟩)) =
      ["read error: read tcp 10.0.0.1:50000->10.0.0.2:23: connection reset by peer\n",
       "\n[connection closed by remote]\n"] :=
  ⟨((inbound_error_classification (newSession true) []).2 _).1 (Or.inl rfl),
   ((inbound_error_classification (newSession true) []).2 _).2 (by decide)⟩

/-- C3 (byte-exactness of the outbound pump).  For every byte sequence given
on local input and ended by end-of-input, when no write and no flush fails,
the outbound goroutine returns, and the chunks it has handed to the
connection, concatenated in order, are the input exactly; it has called
neither `Close` nor `CloseWrite` nor `cancel` while doing so, and its last
two calls are the half-close (the full close without a TCP connection) and
the stdin-closed notice. -/
theorem outbound_byte_exact (s : Session) (data : List Byte) (wr : Nat → WriteResult)
    (hok : ∀ j, wr j = WriteResult.ok) :
    ∃ t chunks, SameConn s t ∧ t.sent = s.sent ++ chunks ∧ chunks.flatten = data ∧
      outboundPump s { data := data, err := eof } wr =
        some (eprint (if t.tcp then closeWrite t else connClose t CloseSite.fallback)
                "[stdin closed] sending FIN; waiting for remote...\n",
              LoopExit.readEnded) := by
  obtain ⟨t, chunks, h1, h2, h3, h4⟩ :=
    outboundLoop_ok (data.length + 1) { s with buffered := [] } { data := data, err := eof }
      wr 0 hok rfl (by simp)
  refine ⟨t, chunks, (sameConn_resetBuffer s).trans h1, h2, h3, ?_⟩
  unfold outboundPump
  rw [h4]
  simp [onReadError, eof]

/-- Witness of C3: the input `hi`, newline, `x` with no final newline. -/
theorem outbound_byte_exact_witness :
    (∀ j : Nat, (fun _ => WriteResult.ok) j = WriteResult.ok) ∧
    (∃ t chunks, SameConn (newSession true) t ∧ t.sent = (newSession true).sent ++ chunks ∧
      chunks.flatten = [104, 105, 10, 120] ∧
      outboundPump (newSession true) { data := [104, 105, 10, 120], err := eof }
          (fun _ => WriteResult.ok) =
        some (eprint (if t.tcp then closeWrite t else connClose t CloseSite.fallback)
                "[stdin closed] sending FIN; waiting for remote...\n",
              LoopExit.readEnded)) ∧
    (outboundPump (newSession true) { data := [104, 105, 10, 120], err := eof }
        (fun _ => WriteResult.ok)).map (fun p => p.1.sent) = some [[104, 105, 10], [120]] :=
  ⟨fun _ => rfl,
   outbound_byte_exact (newSession true) [104, 105, 10, 120] (fun _ => WriteResult.ok)
     (fun _ => rfl),
   by decide⟩

/-- C5, counterexample: local input is the single byte `a` followed by
end-of-input and the flush of that byte fails.  `ReadBytes` has yielded EOF,
yet the goroutine returns with neither `CloseWrite` nor `Close` called and
without the stdin-closed notice. -/
theorem eof_after_failed_flush_no_close :
    (outboundPump (newSession true) { data := [97], err := eof }
        (fun _ => { writeErr := none,
                    flushErr := some ⟨"write tcp 10.0.0.1:50000->10.0.0.2:23: write: broken pipe",
                      false, false⟩ })).map
      (fun p => (p.2, p.1.log, p.1.writeClosed, p.1.connClosed)) =
    some (LoopExit.writeFailed,
      [Event.stdinRead [97] (some eof), Event.write [97] none,
       Event.flush (some ⟨"write tcp 10.0.0.1:50000->10.0.0.2:23: write: broken pipe",
         false, false⟩)],
      false, false) := by
  decide

/-- C5 as amended (local end-of-input).  When `ReadBytes` yields EOF and the
bytes returned with it, if any, are written and flushed without failure, the
iteration makes exactly these calls after the read: the write and the flush
of a non-empty chunk, then one closing call (`CloseWrite` with a TCP
connection, `Close` otherwise), then the stdin-closed notice; and the
goroutine returns.  `once` and the context are untouched; with a TCP
connection the handle is not closed. -/
theorem eof_branch_single_close (s : Session) (b : List Byte) (e : GoError) (r : WriteResult)
    (he : e.isEOF = true) (hw : b = [] ∨ r = WriteResult.ok) :
    (outboundIter s b (some e) r).2 = LoopExit.readEnded ∧
    (outboundIter s b (some e) r).1.log =
      s.log ++ [Event.stdinRead b (some e)] ++
        (if b = [] then [] else [Event.write b none, Event.flush none]) ++
        [if s.tcp then Event.closeWrite else Event.connClose CloseSite.fallback,
         Event.stderr "[stdin closed] sending FIN; waiting for remote...\n"] ∧
    (outboundIter s b (some e) r).1.onceDone = s.onceDone ∧
    (outboundIter s b (some e) r).1.ctxDone = s.ctxDone ∧
    (s.tcp = true → (outboundIter s b (some e) r).1.writeClosed = true ∧
      (outboundIter s b (some e) r).1.connClosed = s.connClosed) ∧
    (s.tcp = false → (outboundIter s b (some e) r).1.connClosed = true ∧
      (outboundIter s b (some e) r).1.writeClosed = s.writeClosed) := by
  cases b with
  | nil =>
    cases ht : s.tcp <;>
      simp [outboundIter, writeChunk, onReadError, he, ht, eprint, closeWrite, connClose]
  | cons c cs =>
    have hr : r = WriteResult.ok := by
      rcases hw with h | h
      · simp at h
      · exact h
    subst hr
    cases ht : s.tcp <;>
      simp [outboundIter, writeChunk, onReadError, he, ht, eprint, closeWrite, connClose,
        WriteResult.ok]

/-- Witness of C5 as amended: end-of-input after an unterminated `a`, on a
TCP connection. -/
theorem eof_branch_single_close_witness :
    eof.isEOF = true ∧ (([97] : List Byte) = [] ∨ WriteResult.ok = WriteResult.ok) ∧
    (outboundIter (newSession true) [97] (some eof) WriteResult.ok).1.log =
      (newSession true).log ++ [Event.stdinRead [97] (some eof)] ++
        (if ([97] : List Byte) = [] then [] else [Event.write [97] none, Event.flush none]) ++
        [if (newSession true).tcp then Event.closeWrite
          else Event.connClose CloseSite.fallback,
         Event.stderr "[stdin closed] sending FIN; waiting for remote...\n"] :=
  ⟨rfl, Or.inr rfl,
   (eof_branch_single_close (newSession true) [97] eof WriteResult.ok rfl (Or.inr rfl)).2.1⟩

/-- C6 (an outbound write failure does not end the session).  An iteration
whose non-empty chunk meets a failing `Write` or `Flush` breaks out of the
loop, and the goroutine, which returns on every input, when it returns on
such a failure has left the shutdown latch, the context and the connection
as they were (no `closeAll`, `cancel`, `Close` or `CloseWrite` call, nothing
printed), the failed call being its last. -/
theorem write_failure_keeps_session :
    (∀ (s : Session) (b : List Byte) (err : Option GoError) (r : WriteResult),
      b ≠ [] → (r.writeErr ≠ none ∨ r.flushErr ≠ none) →
        (outboundIter s b err r).2 = LoopExit.writeFailed ∧
        SameConn s (outboundIter s b err r).1 ∧
        endsInFailedWrite (outboundIter s b err r).1.log = true) ∧
    (∀ (s : Session) (inp : Stdin) (wr : Nat → WriteResult),
      ∃ res, outboundPump s inp wr = some res ∧
        (res.2 = LoopExit.writeFailed →
          SameConn s res.1 ∧ endsInFailedWrite res.1.log = true)) := by
  refine ⟨fun s b err r hb hf => ?_, outboundPump_writeFailed⟩
  have hx := outboundIter_fail s b err r hb hf
  exact ⟨hx, outboundIter_sameConn s b err r (by rw [hx]; decide),
    outboundIter_failed s b err r hx⟩

/-- Witness of C6: the write of the line `hi` fails on a closed handle. -/
theorem write_failure_keeps_session_witness :
    ([104, 105, 10] : List Byte) ≠ [] ∧
    (outboundIter (newSession true) [104, 105, 10] none
      { writeErr := some ⟨"write tcp 10.0.0.1:50000->10.0.0.2:23: use of closed network connection",
          true, false⟩,
        flushErr := none }).2 = LoopExit.writeFailed :=
  ⟨by decide,
   (write_failure_keeps_session.1 (newSession true) [104, 105, 10] none
      { writeErr := some ⟨"write tcp 10.0.0.1:50000->10.0.0.2:23: use of closed network connection",
          true, false⟩,
        flushErr := none } (by decide) (Or.inl (by decide))).1⟩

/-- C8, counterexample: the write of the line `hi` fails with a broken pipe,
which is not an already-closed condition; the goroutine returns and nothing
has been printed on `os.Stderr`. -/
theorem unexpected_write_error_not_reported :
    (outboundPump (newSession true) { data := [104, 105, 10], err := eof }
        (fun _ => { writeErr := some ⟨"write tcp 10.0.0.1:50000->10.0.0.2:23: write: broken pipe",
                      false, false⟩,
                    flushErr := none })).map
      (fun p => (p.2, diag p.1)) =
    some (LoopExit.writeFailed, []) := by
  decide

/-- C8 as amended (write failures are silent).  Whatever the error of a
failing `Write` or `Flush`, already-closed or not, the outbound goroutine
prints nothing for it: the iteration that meets the failure, and the
goroutine when it returns on it, leave the diagnostic stream as it was. -/
theorem write_failure_is_silent :
    (∀ (s : Session) (b : List Byte) (err : Option GoError) (r : WriteResult) (e : GoError),
      b ≠ [] → (r.writeErr = some e ∨ r.flushErr = some e) →
        (outboundIter s b err r).2 = LoopExit.writeFailed ∧
        diag (outboundIter s b err r).1 = diag s) ∧
    (∀ (s : Session) (inp : Stdin) (wr : Nat → WriteResult),
      ∃ res, outboundPump s inp wr = some res ∧
        (res.2 = LoopExit.writeFailed → diag res.1 = diag s)) := by
  refine ⟨fun s b err r e hb hf => ?_, fun s inp wr => ?_⟩
  · have hf2 : r.writeErr ≠ none ∨ r.flushErr ≠ none := by
      rcases hf with h | h
      · exact Or.inl (by simp [h])
      · exact Or.inr (by simp [h])
    have hx := outboundIter_fail s b err r hb hf2
    exact ⟨hx, (outboundIter_sameConn s b err r (by rw [hx]; decide)).2.2.2.2.2.2.2.2⟩
  · obtain ⟨res, h1, h2⟩ := outboundPump_writeFailed s inp wr
    exact ⟨res, h1, fun hx => (h2 hx).1.2.2.2.2.2.2.2.2⟩

/-- Witness of C8 as amended: a flush failing with a broken pipe. -/
theorem write_failure_is_silent_witness :
    ([104, 105, 10] : List Byte) ≠ [] ∧
    diag (outboundIter (newSession true) [104, 105, 10] none
      { writeErr := none,
        flushErr := some ⟨"write tcp 10.0.0.1:50000->10.0.0.2:23: write: broken pipe",
          false, false⟩ }).1 = diag (newSession true) :=
  ⟨by decide,
   (write_failure_is_silent.1 (newSession true) [104, 105, 10] none
      { writeErr := none,
        flushErr := some ⟨"write tcp 10.0.0.1:50000->10.0.0.2:23: write: broken pipe",
          false, false⟩ }
      ⟨"write tcp 10.0.0.1:50000->10.0.0.2:23: write: broken pipe", false, false⟩
      (by decide) (Or.inr rfl)).2⟩

/-- C9, counterexample: on a TCP connection, local input ends at once and the
remote closes.  The outbound goroutine half-closes, the inbound goroutine
calls `closeAll`, `main` returns: `conn.Close()` has been called twice, from
`closeAll` by the inbound goroutine and from the deferred call by `main`. -/
theorem close_called_twice :
    (mainReturn (Run.exec true
        [Action.outbound [] (some eof) WriteResult.ok, Action.inbound [] none])).map
      (fun s => (closeCalls s, s.log)) =
    some (2,
      [Event.stdinRead [] (some eof), Event.closeWrite,
       Event.stderr "[stdin closed] sending FIN; waiting for remote...\n",
       Event.copy [] none, Event.stderr "\n[connection closed by remote]\n",
       Event.cancel, Event.connClose CloseSite.closeAll,
       Event.connClose CloseSite.deferred, Event.cancel]) := by
  decide

/-- C9 as amended (closes per session).  In every execution of a session
from connect to the return of `main`, under every schedule of the listener
and the two pumps, `conn.Close()` has been called exactly once from
`closeAll`, exactly once from the deferred call of `main`, and at most once
from the fallback of the outbound goroutine, never with a TCP connection:
two or three calls in all, and the handle is closed. -/
theorem close_calls_at_exit (tcp : Bool) (acts : List Action) (s : Session)
    (h : mainReturn (Run.exec tcp acts) = some s) :
    s.connClosed = true ∧
    closeCallsAt s CloseSite.closeAll = 1 ∧
    closeCallsAt s CloseSite.deferred = 1 ∧
    closeCallsAt s CloseSite.fallback ≤ 1 ∧
    (tcp = true → closeCallsAt s CloseSite.fallback = 0) ∧
    2 ≤ closeCalls s ∧ closeCalls s ≤ 3 := by
  obtain ⟨_, h2, h3, h4, h5⟩ := closeInv_exec tcp acts
  unfold mainReturn at h
  split at h
  · rename_i hdone
    simp only [Bool.and_eq_true] at hdone
    simp only [Option.some.injEq] at h
    subst h
    have hd := h5 hdone.1
    rw [hd] at h2
    simp only [if_true] at h2
    have e1 : closeCallsAt (cancel (connClose (Run.exec tcp acts).s CloseSite.deferred))
        CloseSite.closeAll = 1 := by
      simpa [cancel, connClose, closeCallsAt, List.count_append] using h2
    have e2 : closeCallsAt (cancel (connClose (Run.exec tcp acts).s CloseSite.deferred))
        CloseSite.deferred = 1 := by
      simpa [cancel, connClose, closeCallsAt, List.count_append] using h4
    have e3 : closeCallsAt (cancel (connClose (Run.exec tcp acts).s CloseSite.deferred))
        CloseSite.fallback = closeCallsAt (Run.exec tcp acts).s CloseSite.fallback := by
      simp [cancel, connClose, closeCallsAt, List.count_append]
    have e4 : closeCallsAt (Run.exec tcp acts).s CloseSite.fallback ≤ 1 := by
      refine le_trans h3 ?_
      split <;> omega
    refine ⟨rfl, e1, e2, e3 ▸ e4, ?_, ?_, ?_⟩
    · intro ht
      rw [e3]
      subst ht
      simpa using h3
    · simp only [closeCalls, e1, e2, e3]
      omega
    · simp only [closeCalls, e1, e2, e3]
      omega
  · simp at h

/-- Witness of C9 as amended: no half-close available, a signal arrives, the
local input ends, the remote closes; three closes in all. -/
theorem close_calls_at_exit_witness :
    (mainReturn (Run.exec false
        [Action.signal "interrupt", Action.outbound [] (some eof) WriteResult.ok,
         Action.inbound [] none])).map closeCalls = some 3 ∧
    closeCallsAt
      (cancel (connClose (Run.exec false
        [Action.signal "interrupt", Action.outbound [] (some eof) WriteResult.ok,
         Action.inbound [] none]).s CloseSite.deferred)) CloseSite.closeAll = 1 :=
  ⟨by decide,
   (close_calls_at_exit false
      [Action.signal "interrupt", Action.outbound [] (some eof) WriteResult.ok,
       Action.inbound [] none] _ rfl).2.1⟩

/-- C10, counterexample: a host with a percent sign and no colon is joined
without brackets. -/
theorem parseAddr_percent_host_unbracketed :
    parseAddr ["fe80%eth0", "23"] = Except.ok "fe80%eth0:23" ∧
    parseAddr ["fe80%eth0", "23"] ≠ Except.ok "[fe80%eth0]:23" := by
  decide

/-- C10 as amended (`parseAddr`).  The call succeeds exactly for two
arguments, or for one argument that contains a colon.  One such argument is
returned unchanged; two arguments are joined as `[host]:port` when the host
contains a colon and as `host:port` otherwise.  Zero or more than two
arguments fail with "invalid arguments", one argument without a colon fails
with "single argument must be in host:port form". -/
theorem parseAddr_shapes (args : List String) :
    ((∃ addr, parseAddr args = Except.ok addr) ↔
      (args.length = 2 ∨ ∃ a, args = [a] ∧ ':' ∈ a.toList)) ∧
    (∀ a, args = [a] → ':' ∈ a.toList → parseAddr args = Except.ok a) ∧
    (∀ h p, args = [h, p] →
      parseAddr args =
        Except.ok (if ':' ∈ h.toList then "[" ++ h ++ "]:" ++ p else h ++ ":" ++ p)) ∧
    (args.length ≠ 1 → args.length ≠ 2 → parseAddr args = Except.error "invalid arguments") ∧
    (∀ a, args = [a] → ':' ∉ a.toList →
      parseAddr args = Except.error "single argument must be in host:port form") := by
  have one_ok : ∀ a : String, ':' ∈ a.toList → parseAddr [a] = Except.ok a := by
    intro a ha
    have := (stringsContains_colon a).mpr ha
    simp [parseAddr, this]
  have one_err : ∀ a : String, ':' ∉ a.toList →
      parseAddr [a] = Except.error "single argument must be in host:port form" := by
    intro a ha
    have : stringsContains a ":" = false := by
      cases hc : stringsContains a ":"
      · rfl
      · exact absurd ((stringsContains_colon a).mp hc) ha
    simp [parseAddr, this]
  have two : ∀ h p : String, parseAddr [h, p] =
      Except.ok (if ':' ∈ h.toList then "[" ++ h ++ "]:" ++ p else h ++ ":" ++ p) := by
    intro h p
    by_cases hc : ':' ∈ h.toList
    · have := (stringsContains_colon h).mpr hc
      rw [if_pos hc]
      simp [parseAddr, joinHostPort, this]
    · have : stringsContains h ":" = false := by
        cases hs : stringsContains h ":"
        · rfl
        · exact absurd ((stringsContains_colon h).mp hs) hc
      rw [if_neg hc]
      simp [parseAddr, joinHostPort, this]
  refine ⟨?_, ?_, ?_, ?_, ?_⟩
  · match args with
    | [] => simp [parseAddr]
    | [a] =>
      by_cases hc : ':' ∈ a.toList
      · rw [one_ok a hc]
        exact ⟨fun _ => Or.inr ⟨a, rfl, hc⟩, fun _ => ⟨a, rfl⟩⟩
      · rw [one_err a hc]
        constructor
        · rintro ⟨addr, h⟩
          cases h
        · rintro (h | ⟨b, hb, hb2⟩)
          · simp at h
          · simp only [List.cons.injEq, and_true] at hb
            subst hb
            exact absurd hb2 hc
    | [h, p] => simp [two h p]
    | _ :: _ :: _ :: _ => simp [parseAddr]
  · intro a ha hc
    subst ha
    exact one_ok a hc
  · intro h p hargs
    subst hargs
    exact two h p
  · intro h1 h2
    match args, h1, h2 with
    | [], _, _ => rfl
    | [_], h1, _ => simp at h1
    | [_, _], _, h2 => simp at h2
    | _ :: _ :: _ :: _, _, _ => rfl
  · intro a ha hc
    subst ha
    exact one_err a hc

/-- Witness of C10 as amended: an IPv6 literal and a port. -/
theorem parseAddr_shapes_witness :
    parseAddr ["::1", "23"] = Except.ok "[::1]:23" ∧
    parseAddr ["example.org:23"] = Except.ok "example.org:23" :=
  ⟨((parseAddr_shapes ["::1", "23"]).2.2.1 "::1" "23" rfl).trans (by decide),
   (parseAddr_shapes ["example.org:23"]).2.1 "example.org:23" rfl (by decide)⟩

end TelnetCli
